import Mathlib

/-
Verification development for the documentation-lookup cog.

The embedded program consists of three Python source files:
  bot/cogs/doc.py          (legacy monolithic `Doc` cog)
  bot/cogs/doc/cog.py      (`DocCog`, `TODO_PLACEHOLDER` page coordinator)
  bot/cogs/doc/parsing.py  (symbol extraction and markdown rendering)

Python strings are modelled as `List Char`; Python dicts (plain and ordered)
as association lists in insertion order where updating an existing key keeps
its position and a fresh key is appended at the end; Python sets of strings
as lists queried by membership.  External collaborators (BeautifulSoup tree
traversal, markdownify, textwrap.shorten, HTTP) are parameters of the
embedded functions.  Fallible Python code (AttributeError and friends) is
embedded with `Except PyErr`.
-/

namespace BotDoc

abbrev Str := List Char

/-- Python newline character. -/
def nlC : Char := Char.ofNat 10

/-- Backtick character. -/
def tickC : Char := Char.ofNat 96

/-- Pilcrow character, removed from descriptions by the source. -/
def pilcrowC : Char := Char.ofNat 182

/-- The three-backtick fence marker counted by `_truncate_markdown`. -/
def ticks3 : Str := [tickC, tickC, tickC]

/-- The cutoff marker searched by `markdown.rfind('```py')`. -/
def fencePyS : Str := ticks3 ++ ['p', 'y']

/-- The signature codeblock opener from the f-string in `_parse_into_markdown`. -/
def fencePyNl : Str := fencePyS ++ [nlC]

/-- The ellipsis appended by `_truncate_markdown`. -/
def dots3 : Str := ['.', '.', '.']

/-- The blank-line pattern of `shortened.rfind('\n\n', 100)`. -/
def nnS : Str := [nlC, nlC]

def dotSpaceS : Str := ['.', ' ']
def commaSpaceS : Str := [',', ' ']
def commaS : Str := [',']
def spaceS : Str := [' ']

/-- The whitespace set of Python `str.rstrip()` and of the regex class backslash-s. -/
def isPySpace (c : Char) : Bool :=
  c = ' ' || c = nlC || c = Char.ofNat 9 || c = Char.ofNat 13 || c = Char.ofNat 11 || c = Char.ofNat 12

/-- The 32 characters of Python `string.punctuation`, used by
`markdown.rstrip(string.punctuation)` in `_truncate_markdown`. -/
def punctuationS : Str :=
  (List.map Char.ofNat
    [33, 34, 35, 36, 37, 38, 39, 40, 41, 42, 43, 44, 45, 46, 47,
     58, 59, 60, 61, 62, 63, 64, 91, 92, 93, 94, 95, 96, 123, 124, 125, 126])

def isPunct (c : Char) : Bool := punctuationS.contains c

/-! ### Association lists: Python dict / OrderedDict in insertion order -/

/-- Lookup in an insertion-ordered association list (Python `d.get(k)` /
`k in d` / `d[k]`). -/
def assocLookup {K V : Type} [DecidableEq K] : List (K × V) → K → Option V
  | [], _ => none
  | (k', v) :: t, k => if k' = k then some v else assocLookup t k

/-- Update in an insertion-ordered association list (Python `d[k] = v`):
an existing key keeps its position, a fresh key is appended at the end. -/
def assocSet {K V : Type} [DecidableEq K] : List (K × V) → K → V → List (K × V)
  | [], k, v => [(k, v)]
  | (k', v') :: t, k, v => if k' = k then (k, v) :: t else (k', v') :: assocSet t k v

/-! ### Python string primitives used by the source -/

/-- Occurrence test: `pat` occurs in `s` at index `i`. -/
def occursAt (s pat : Str) (i : Nat) : Bool := pat.isPrefixOf (s.drop i)

/-- Scan indices `n, n-1, ..., start` for the rightmost occurrence. -/
def rfindAux (s pat : Str) (start : Nat) : Nat → Option Nat
  | 0 => if start ≤ 0 && occursAt s pat 0 then some 0 else none
  | i + 1 =>
    if start ≤ i + 1 && occursAt s pat (i + 1) then some (i + 1)
    else rfindAux s pat start i

/-- Python `s.rfind(pat, start)`: the largest index `i ≥ start` at which `pat`
occurs in `s`, `none` standing for Python's `-1`. -/
def pyRfindFrom (s pat : Str) (start : Nat) : Option Nat := rfindAux s pat start s.length

/-- Python `sub in s` (substring containment). -/
def containsSub (sub s : Str) : Bool :=
  (List.range (s.length + 1)).any (fun i => occursAt s sub i)

/-- Split off everything before/after the first occurrence of `c`, if any. -/
def splitOnceChar (c : Char) : Str → Option (Str × Str)
  | [] => none
  | x :: t =>
    if x = c then some ([], t)
    else (splitOnceChar c t).map (fun p => (x :: p.1, p.2))

/-- Python `s.split(c, maxsplit)`. -/
def splitCharMax (c : Char) : Nat → Str → List Str
  | 0, s => [s]
  | n + 1, s =>
    match splitOnceChar c s with
    | none => [s]
    | some (a, b) => a :: splitCharMax c n b

/-- Python `s.split(c)` (no maxsplit bound; `s.rsplit(c)` yields the same list). -/
def splitAllChar (c : Char) (s : Str) : List Str := splitCharMax c s.length s

/-- Python `s.partition('#')` restricted to the two components the source keeps:
`relative_url_path, _, symbol_id = relative_doc_url.partition("#")`. -/
def pyPartitionHash (s : Str) : Str × Str :=
  match splitOnceChar '#' s with
  | none => (s, [])
  | some p => p

/-- Python `request_url, symbol_id = url.rsplit('#')`: succeeds exactly when
the split yields two parts, otherwise Python raises ValueError. -/
def rsplitHashPair (s : Str) : Option (Str × Str) :=
  match splitAllChar '#' s with
  | [a, b] => some (a, b)
  | _ => none

/-- Python `markdown.count("```")`: non-overlapping occurrences, left to right. -/
def countTicks : Str → Nat
  | [] => 0
  | c :: rest =>
    if ticks3.isPrefixOf (c :: rest) then countTicks (rest.drop 2) + 1
    else countTicks rest
termination_by s => s.length
decreasing_by
  · simp only [List.length_drop, List.length_cons]; omega
  · simp only [List.length_cons]; omega

/-- Python `s.rstrip(chars)`: drop the longest suffix whose characters satisfy `p`. -/
def rstripP (p : Char → Bool) (s : Str) : Str := (s.reverse.dropWhile p).reverse

/-- Python `s.replace(pilcrow, '')`. -/
def removePilcrow (s : Str) : Str := s.filter (fun c => !(c = pilcrowC))

/-! ### Truncation: `_truncate_markdown` (bot/cogs/doc/parsing.py lines 129-155) -/

/-- Lines 138-147: the cutoff-point search on `shortened = markdown[:max_length]`:
first `rfind('\n\n', 100)`, then `". "`, `", "`, `","`, `" "` in order, else
`max_length`. -/
def chooseCutoff (shortened : Str) (maxLen : Nat) : Nat :=
  match pyRfindFrom shortened nnS 100 with
  | some i => i
  | none =>
    match pyRfindFrom shortened dotSpaceS 0 with
    | some i => i
    | none =>
      match pyRfindFrom shortened commaSpaceS 0 with
      | some i => i
      | none =>
        match pyRfindFrom shortened commaS 0 with
        | some i => i
        | none =>
          match pyRfindFrom shortened spaceS 0 with
          | some i => i
          | none => maxLen

/-- Lines 150-153: if the cut text holds an odd number of fence markers, cut back
to `markdown.rfind('```py')` and strip trailing whitespace.  Python's `rfind`
returns `-1` when the marker is absent, so `markdown[:codeblock_start]` then
drops exactly the last character. -/
def fenceFix (md : Str) : Str :=
  if countTicks md % 2 = 1 then
    match pyRfindFrom md fencePyS 0 with
    | some i => rstripP isPySpace (md.take i)
    | none => rstripP isPySpace (md.take (md.length - 1))
  else md

/-- Embeds `_truncate_markdown(markdown, max_length)`: the body of the
`len(markdown) > max_length` branch is `markdown[:description_cutoff]`,
the fence fix-up, then `markdown.rstrip(string.punctuation) + "..."`. -/
def truncate_markdown (markdown : Str) (max_length : Nat) : Str :=
  if max_length < markdown.length then
    rstripP isPunct
      (fenceFix (markdown.take (chooseCutoff (markdown.take max_length) max_length)))
      ++ dots3
  else markdown

/-! ### Regex collapse: `_WHITESPACE_AFTER_NEWLINES_RE.sub('', ...)` -/

/-- Regex `(?<=\n\n)(\s+)` with replacement by the empty string: remove every
maximal whitespace run whose two preceding characters in the original string
are both newlines.  `deleting` records being inside a matched run (the regex
consumes the run greedily); `p2`/`p1` track the two previously scanned
characters of the original string. -/
def wsAfterNLAux : Bool → Option Char → Option Char → Str → Str
  | _, _, _, [] => []
  | true, _p2, p1, c :: rest =>
    if isPySpace c then wsAfterNLAux true p1 (some c) rest
    else c :: wsAfterNLAux false p1 (some c) rest
  | false, p2, p1, c :: rest =>
    if p2 = some nlC ∧ p1 = some nlC ∧ isPySpace c then
      wsAfterNLAux true p1 (some c) rest
    else c :: wsAfterNLAux false p1 (some c) rest

/-- Embeds `WHITESPACE_AFTER_NEWLINES_RE.sub('', description)`. -/
def wsAfterNewlines (s : Str) : Str := wsAfterNLAux false none none s

/-! ### Python exceptions -/

inductive PyErr : Type
  /-- AttributeError: an attribute/method access on `None` or a missing method. -/
  | attributeError
  /-- ValueError: e.g. tuple unpacking of `rsplit` with the wrong arity,
  or `list.remove` of a missing element. -/
  | valueError
  /-- IndexError: subscript of a too-short list. -/
  | indexError
deriving DecidableEq

/-! ### Data model

`DocItem` of bot/cogs/doc/cog.py (lines 119-132) and of bot/cogs/doc.py
(lines 86-91). -/

structure DocItemCog where
  name : Str
  package : Str
  group : Str
  base_url : Str
  relative_url_path : Str
  symbol_id : Str
deriving DecidableEq

/-- Embeds `DocItem.url` (cog.py lines 130-132):
`"".join((base_url, relative_url_path, "#", symbol_id))`. -/
def DocItemCog.url (d : DocItemCog) : Str :=
  d.base_url ++ d.relative_url_path ++ ['#'] ++ d.symbol_id

/-- Legacy `DocItem` of doc.py: the url is stored absolute, anchor included. -/
structure DocItemDoc where
  package : Str
  url : Str
  group : Str
deriving DecidableEq

/-- Embeds `NO_OVERRIDE_GROUPS` (identical in cog.py lines 40-46 and doc.py lines 43-49). -/
def NO_OVERRIDE_GROUPS : List Str :=
  ["2to3fixer".data, "token".data, "label".data, "pdbcommand".data, "term".data]

/-- Embeds `NO_OVERRIDE_PACKAGES` (cog.py lines 47-49, doc.py lines 50-52). -/
def NO_OVERRIDE_PACKAGES : List Str := ["python".data]

/-! ### Result cache: `async_cache` (bot/cogs/doc.py lines 94-120)

The cache is an `OrderedDict`; a stored value may itself be Python `None`
(the wrapped coroutine's result), hence values of type `Option V`.  The cache
key is the delimiter-joined argument tuple; it is embedded as an abstract
`K` with decidable equality. -/

/-- Embeds `async_cache.cache.get(key)`: `none` both when the key is absent and when
the stored value is Python `None` — exactly the test `if value is None`. -/
def odGet {K V : Type} [DecidableEq K] (c : List (K × Option V)) (k : K) : Option V :=
  match assocLookup c k with
  | some v => v
  | none => none

structure CallRes (K V : Type) where
  cache : List (K × Option V)
  value : Option V
  invoked : Bool
deriving DecidableEq

/-- One call through the `wrapper` closure of `async_cache` (doc.py lines
108-118): on a hit return the stored value; on a miss, first
`popitem(last=False)` when `len(cache) > max_size`, then store
`await function(*args)` and return `cache[key]`. -/
def cacheCall {K V : Type} [DecidableEq K] (maxSize : Nat) (f : K → Option V)
    (c : List (K × Option V)) (k : K) : CallRes K V :=
  match odGet c k with
  | some v => ⟨c, some v, false⟩
  | none =>
    let c1 := if maxSize < c.length then c.tail else c
    let c2 := assocSet c1 k (f k)
    ⟨c2, odGet c2 k, true⟩

/-- A sequence of calls; also counts how often the wrapped function ran. -/
def runCalls {K V : Type} [DecidableEq K] (maxSize : Nat) (f : K → Option V)
    (ks : List K) (c : List (K × Option V)) : List (K × Option V) × Nat :=
  ks.foldl
    (fun acc k =>
      let r := cacheCall maxSize f acc.1 k
      (r.cache, acc.2 + (if r.invoked then 1 else 0)))
    (c, 0)

/-! ### Page coordinator state (`TODO_PLACEHOLDER`, cog.py lines 56-116) -/

/-- Per-page state: the parse queue, the `started` flag (assigned `False` in
`__init__` and never written again anywhere in the source), and the keys of
`item_events` (an event's only observable state here is whether the waited
item has been parsed). -/
structure PageState where
  queue : List DocItemCog
  started : Bool
  itemEvents : List DocItemCog
deriving DecidableEq

def PageState.empty : PageState := ⟨[], false, []⟩

/-- Embeds `parse_items` (cog.py lines 102-116) run to completion: `queue.pop()` takes
the last item, renders it and stores the result under `item.name` in the
class-level results dict, until the queue is empty.  Rendering (`discord.Embed`
around `get_symbol_markdown`) is the parameter `render`. -/
def parseItemsRun (render : DocItemCog → Str) (objects : List (Str × Str))
    (queue : List DocItemCog) : List (Str × Str) :=
  queue.reverse.foldl (fun obj it => assocSet obj it.name (render it)) objects

/-! ### Cog state: `DocCog` (cog.py lines 167-292) -/

structure DocCogState where
  base_urls : List (Str × Str)
  doc_symbols : List (Str × DocItemCog)
  renamed_symbols : List Str
  /-- Mirrors `async_cache.cache` (reset by `refresh_inventory`). -/
  asyncCache : List (Str × Option Str)
  /-- Mirrors `self.objects`, the class-level results dict of the page coordinator. -/
  objects : List (Str × Str)
  /-- Mirrors `self.urls`, the defaultdict from page key to `TODO_PLACEHOLDER`. -/
  urls : List (Str × PageState)
deriving DecidableEq

/-- The state effect of `refresh_inventory` (cog.py lines 249-252) before
re-ingesting: `base_urls`, `doc_symbols` and `renamed_symbols` are cleared and
`async_cache.cache` is replaced by a fresh `OrderedDict`.  Neither
`self.objects` nor `self.urls` is touched anywhere in the method. -/
def refreshClear (st : DocCogState) : DocCogState :=
  { st with base_urls := [], doc_symbols := [], renamed_symbols := [], asyncCache := [] }

/-! ### Inventory ingestion: `update_single` collision cascade -/

/-- The collision cascade of `DocCog.update_single` (cog.py lines 213-234) for
one inventory entry whose (possibly renamed) final key is returned together
with the updated state.  `renamed_symbols` is a Python set; it is embedded as
a list in insertion order and queried by membership only. -/
def collideRenameCog (api_package_name group_name symbol : Str) (st : DocCogState) :
    Except PyErr (Str × DocCogState) :=
  match assocLookup st.doc_symbols symbol with
  | none => .ok (symbol, st)
  | some existing =>
    -- symbol_base_url = self.doc_symbols[symbol].url.split("/", 3)[2]
    match (splitCharMax '/' 3 existing.url)[2]? with
    | none => .error .indexError
    | some host =>
      if group_name ∈ NO_OVERRIDE_GROUPS
          ∨ NO_OVERRIDE_PACKAGES.any (fun p => containsSub p host) then
        let s' := group_name ++ ['.'] ++ symbol
        .ok (s', { st with renamed_symbols := st.renamed_symbols ++ [s'] })
      else if existing.group ∈ NO_OVERRIDE_GROUPS then
        let ov0 := existing.group ++ ['.'] ++ symbol
        let ov := if ov0 ∈ st.renamed_symbols then api_package_name ++ ['.'] ++ ov0 else ov0
        .ok (symbol,
          { st with doc_symbols := assocSet st.doc_symbols ov existing,
                    renamed_symbols := st.renamed_symbols ++ [ov] })
      else if symbol ∈ st.renamed_symbols then
        let s' := api_package_name ++ ['.'] ++ symbol
        .ok (s', { st with renamed_symbols := st.renamed_symbols ++ [s'] })
      else .ok (symbol, st)

/-- One iteration of the entry loop of `DocCog.update_single` (cog.py lines
205-238): skip symbols containing a slash, intern
`group.split(":")[1]`, run the collision cascade, insert the new `DocItem`
under the final key and append it to the page's parse queue
(`self.urls[base_url+relative_url_path].add_item(...)`, a defaultdict access). -/
def updateEntryCog (api_package_name base_url group symbol relative_doc_url : Str)
    (st : DocCogState) : Except PyErr DocCogState :=
  if containsSub ['/'] symbol then .ok st
  else
    match (splitAllChar ':' group)[1]? with
    | none => .error .indexError
    | some group_name =>
      match collideRenameCog api_package_name group_name symbol st with
      | .error e => .error e
      | .ok (symbol', st1) =>
        let p := pyPartitionHash relative_doc_url
        let item : DocItemCog :=
          ⟨symbol', api_package_name, group_name, base_url, p.1, p.2⟩
        let st2 := { st1 with doc_symbols := assocSet st1.doc_symbols symbol' item }
        let pageKey := base_url ++ p.1
        let q := (assocLookup st2.urls pageKey).getD PageState.empty
        .ok { st2 with urls := assocSet st2.urls pageKey { q with queue := q.queue ++ [item] } }

/-- Legacy `Doc` cog state (doc.py): just the symbol table and renamed set. -/
structure DocStateOld where
  doc_symbols : List (Str × DocItemDoc)
  renamed_symbols : List Str
deriving DecidableEq

/-- One iteration of the entry loop of the legacy `Doc.update_single` (doc.py
lines 224-255).  Differences from the `DocCog` variant, straight from the
source: the first cascade branch renames the new symbol but does NOT add the
renamed key to `renamed_symbols`, and the renamed-set check at line 250 is an
independent `if`, not an `elif`. -/
def updateEntryDoc (api_package_name base_url group symbol relative_doc_url : Str)
    (st : DocStateOld) : Except PyErr DocStateOld :=
  if containsSub ['/'] symbol then .ok st
  else
    match (splitAllChar ':' group)[1]? with
    | none => .error .indexError
    | some group_name =>
      let absolute_doc_url := base_url ++ relative_doc_url
      let finish := fun (sym : Str) (st' : DocStateOld) =>
        Except.ok (ε := PyErr)
          { st' with doc_symbols :=
              assocSet st'.doc_symbols sym ⟨api_package_name, absolute_doc_url, group_name⟩ }
      match assocLookup st.doc_symbols symbol with
      | none => finish symbol st
      | some existing =>
        match (splitCharMax '/' 3 existing.url)[2]? with
        | none => .error .indexError
        | some host =>
          let s1st1 : Str × DocStateOld :=
            if group_name ∈ NO_OVERRIDE_GROUPS
                ∨ NO_OVERRIDE_PACKAGES.any (fun p => containsSub p host) then
              (group_name ++ ['.'] ++ symbol, st)
            else if existing.group ∈ NO_OVERRIDE_GROUPS then
              let ov0 := existing.group ++ ['.'] ++ symbol
              let ov := if ov0 ∈ st.renamed_symbols then api_package_name ++ ['.'] ++ ov0 else ov0
              (symbol,
                { st with doc_symbols := assocSet st.doc_symbols ov existing,
                          renamed_symbols := st.renamed_symbols ++ [ov] })
            else (symbol, st)
          let sym1 := s1st1.1
          let st1 := s1st1.2
          if sym1 ∈ st1.renamed_symbols then
            let s2 := api_package_name ++ ['.'] ++ sym1
            finish s2 { st1 with renamed_symbols := st1.renamed_symbols ++ [s2] }
          else finish sym1 st1

/-! ### Assembly: `_parse_into_markdown` (parsing.py lines 158-173)

The HTML-to-markdown collaborator (`markdownify` with the page url) and
`textwrap.shorten(signature, 500)` are parameters. -/

def parseIntoMarkdownMd (mdConvert : Str → Str → Str) (shorten : Str → Str)
    (signatures : Option (List Str)) (description : Str) (url : Str) : Str :=
  let d := wsAfterNewlines (truncate_markdown (mdConvert description url) 1000)
  let fm :=
    match signatures with
    | some sigs => (sigs.map (fun s => fencePyNl ++ shorten s ++ ticks3)).flatten
    | none => []
  fm ++ nlC :: d

/-! ### Symbol extraction (parsing.py lines 195-228, doc.py lines 280-355)

The BeautifulSoup document is abstracted behind an element interface: the
traversal helpers `_get_general_description`, `_get_dd_description` and
`_get_signatures` walk a borrowed HTML tree owned by the bs4 collaborator.
What the source adds on top of the tree — the `find(id=...)` dispatch, the
`None` handling, the group classification — is embedded faithfully. -/

structure PageApi (El : Type) where
  /-- Collaborator `soup.find(id=...)`. -/
  findId : Str → Option El
  /-- Collaborator `tag.name`. -/
  elName : El → Str
  /-- Collaborator view of `_get_general_description` on a present heading (total: when the
  headerlink lookup fails the heading itself starts the search). -/
  generalDesc : El → Str
  /-- Collaborator `symbol.find_next("dd")` — `None` when no `dd` tag follows. -/
  findNextDd : El → Option El
  /-- Collaborator view of `_find_next_children_until_tag(dd, ("dt", "dl"), ...)` joined to a string. -/
  ddChildrenUntilDtDl : El → Str
  /-- Collaborator view of `_get_signatures` on a present `dt` heading. -/
  signaturesAround : El → List Str
  /-- Collaborator `markdownify(html, url=...)`. -/
  mdConvert : Str → Str → Str
  /-- Collaborator `textwrap.shorten(s, 500)`. -/
  shorten500 : Str → Str

/-- Embeds `_NO_SIGNATURE_GROUPS` (parsing.py lines 34-41, typo included). -/
def NO_SIGNATURE_GROUPS : List Str :=
  ["attribute".data, "envvar".data, "setting".data, "tempaltefilter".data,
   "templatetag".data, "term".data]

/-- Embeds `get_symbol_markdown` (parsing.py lines 195-228).  When
`soup.find(id=symbol_data.symbol_id)` returns `None`, every branch
dereferences the `None` heading — `_get_general_description` calls
`symbol_heading.find_next`, and the `symbol_heading.name != "dt"` test reads
`.name` — so the call raises AttributeError.  When the group needs a `dd`
description but no `dd` tag follows the heading,
`_find_next_children_until_tag` invokes a bs4 find method on `None` and
raises as well. -/
def parsingGetSymbolMarkdown {El : Type} (api : PageApi El) (item : DocItemCog) :
    Except PyErr Str :=
  match api.findId item.symbol_id with
  | none => .error .attributeError
  | some heading =>
    let assemble := fun (sig : Option (List Str)) (description : Str) =>
      Except.ok (ε := PyErr)
        (parseIntoMarkdownMd api.mdConvert api.shorten500 sig
          (removePilcrow description) item.url)
    if item.group = "module".data ∨ item.group = "doc".data ∨ item.group = "label".data then
      assemble none (api.generalDesc heading)
    else if ¬ api.elName heading = "dt".data then
      assemble none (api.generalDesc heading)
    else if item.group ∈ NO_SIGNATURE_GROUPS then
      match api.findNextDd heading with
      | none => .error .attributeError
      | some dd => assemble none (api.ddChildrenUntilDtDl dd)
    else
      match api.findNextDd heading with
      | none => .error .attributeError
      | some dd => assemble (some (api.signaturesAround heading)) (api.ddChildrenUntilDtDl dd)

/-- Legacy `Doc.get_symbol_html` (doc.py lines 280-313).  An unknown symbol and
a missing anchor both yield `None` (embedded as `.ok none`); a url whose
`rsplit('#')` does not have exactly two parts raises ValueError at the tuple
unpacking; a `"module"` group calls `self.parse_module_symbol`, a method the
class does not define, raising AttributeError; other groups collect signatures
and the next `dd` description (crashing like above when no `dd` follows). -/
def docGetSymbolHtml {El : Type} (api : PageApi El) (table : List (Str × DocItemDoc))
    (symbol : Str) : Except PyErr (Option (List Str × Str)) :=
  match assocLookup table symbol with
  | none => .ok none
  | some info =>
    match rsplitHashPair info.url with
    | none => .error .valueError
    | some (_request_url, symbol_id) =>
      match api.findId symbol_id with
      | none => .ok none
      | some heading =>
        if info.group = "module".data then
          .error .attributeError
        else
          match api.findNextDd heading with
          | none => .error .attributeError
          | some dd =>
            .ok (some (api.signaturesAround heading,
              removePilcrow (api.ddChildrenUntilDtDl dd)))

/-- Legacy `Doc.get_symbol_embed` (doc.py lines 316-355) up to embed assembly:
when `get_symbol_html` produced data, line 330 calls `self.truncate_markdown`,
a method the `Doc` class does not define, so the call raises AttributeError
before any of the signature/fallback assembly below it can run. -/
def docGetSymbolEmbed {El : Type} (api : PageApi El) (table : List (Str × DocItemDoc))
    (symbol : Str) : Except PyErr (Option Str) :=
  match docGetSymbolHtml api table symbol with
  | .error e => .error e
  | .ok none => .ok none
  | .ok (some _) => .error .attributeError

/-- The fixed fallback text of doc.py line 340. -/
def genericPageText : Str :=
  "This appears to be a generic page not tied to a specific symbol.".data

/-! ### Single-caller resolution (`DocCog.get_symbol_markdown`, cog.py 263-274)

The sequential (one caller, no interleaving) semantics of one resolution:
the `self.objects` short-circuit, the `q.started` fetch guard, then
`wait_for_item` followed by the spawned `parse_items` loop run to completion.
`render` abstracts building the embed for one item. -/

inductive ResolveOut : Type
  /-- The call returned this text after `fetches` page fetches. -/
  | served (text : Str) (fetches : Nat)
  /-- The call registered an event, but `item_events` was already non-empty so
  no parse task was spawned; with no other caller running, `await
  item_event.wait()` never returns. -/
  | blocked (fetches : Nat)
  /-- Raised: `put_to_front` called `queue.remove(item)` with the item absent:
  ValueError. -/
  | raises (fetches : Nat)
deriving DecidableEq

def resolveOnce (render : DocItemCog → Str) (st : DocCogState) (item : DocItemCog) :
    DocCogState × ResolveOut :=
  match assocLookup st.objects item.name with
  | some e => (st, .served e 0)
  | none =>
    let pageKey := item.base_url ++ item.relative_url_path
    let q := (assocLookup st.urls pageKey).getD PageState.empty
    -- `if not q.started:` — fetch the page; `started` is never `True`.
    let fetches := if q.started then 0 else 1
    if item ∈ q.queue then
      let queue1 := q.queue.erase item ++ [item]
      if q.itemEvents.isEmpty then
        let objects1 := parseItemsRun render st.objects queue1
        let st' := { st with objects := objects1,
                             urls := assocSet st.urls pageKey ⟨[], q.started, [item]⟩ }
        match assocLookup objects1 item.name with
        | some e => (st', .served e fetches)
        | none => (st', .blocked fetches)
      else
        let q1 : PageState := { q with queue := queue1, itemEvents := q.itemEvents ++ [item] }
        ({ st with urls := assocSet st.urls pageKey q1 }, .blocked fetches)
    else (st, .raises fetches)

/-! ### Two concurrent callers on one page (claim C1)

A small labelled transition system over the code of
`DocCog.get_symbol_markdown` + `TODO_PLACEHOLDER.wait_for_item` /
`parse_items` for two callers A and B resolving two symbols of the same page.
Suspension points are exactly the awaits of the source: the HTTP GET and
`item_event.wait()`; `parse_items` runs between caller steps. -/

inductive CallPhase : Type
  /-- About to run the body of `get_symbol_markdown`. -/
  | notStarted
  /-- Suspended inside `async with self.bot.http_session.get(...)`. -/
  | fetching
  /-- Suspended in `await item_event.wait()`. -/
  | waiting
  | done
deriving DecidableEq

structure BurstState where
  objects : List (Str × Str)
  page : PageState
  fetchCount : Nat
  parseSpawns : Nat
  phaseA : CallPhase
  phaseB : CallPhase
deriving DecidableEq

/-- The synchronous body of `wait_for_item` (cog.py lines 84-100):
`put_to_front`, then spawn `parse_items` exactly when `item_events` is empty,
then register the event and suspend. -/
def waitForItemStep (item : DocItemCog) (s : BurstState) : BurstState × CallPhase :=
  let queue1 := s.page.queue.erase item ++ [item]
  if s.page.itemEvents.isEmpty then
    ({ s with page := ⟨queue1, s.page.started, [item]⟩,
              parseSpawns := s.parseSpawns + 1 }, .waiting)
  else
    ({ s with page := ⟨queue1, s.page.started, s.page.itemEvents ++ [item]⟩ }, .waiting)

/-- Advance one caller by one scheduling quantum. -/
def callStep (item : DocItemCog) (s : BurstState) (ph : CallPhase) :
    BurstState × CallPhase :=
  match ph with
  | .notStarted =>
    match assocLookup s.objects item.name with
    | some _ => (s, .done)
    | none =>
      if s.page.started then waitForItemStep item s
      else ({ s with fetchCount := s.fetchCount + 1 }, .fetching)
  | .fetching => waitForItemStep item s
  | .waiting =>
    match assocLookup s.objects item.name with
    | some _ => (s, .done)
    | none => (s, .waiting)
  | .done => (s, .done)

inductive BurstEv : Type
  | stepA
  | stepB
  /-- The spawned `parse_items` task runs its loop to completion. -/
  | runParse
deriving DecidableEq

def burstStep (render : DocItemCog → Str) (itemA itemB : DocItemCog)
    (s : BurstState) : BurstEv → BurstState
  | .stepA => let r := callStep itemA s s.phaseA; { r.1 with phaseA := r.2 }
  | .stepB => let r := callStep itemB s s.phaseB; { r.1 with phaseB := r.2 }
  | .runParse =>
    { s with objects := parseItemsRun render s.objects s.page.queue,
             page := ⟨[], s.page.started, s.page.itemEvents⟩ }

def burstRun (render : DocItemCog → Str) (itemA itemB : DocItemCog)
    (s : BurstState) (evs : List BurstEv) : BurstState :=
  evs.foldl (burstStep render itemA itemB) s

/-! ### Concrete scenario constants for the claims -/

/-- C1: two symbols hosted by the same page. -/
def c1ItemA : DocItemCog :=
  ⟨"symA".data, "pkg".data, "class".data, "https://docs.example/".data, "p.html".data, "symA".data⟩

def c1ItemB : DocItemCog :=
  ⟨"symB".data, "pkg".data, "class".data, "https://docs.example/".data, "p.html".data, "symB".data⟩

/-- C1: both symbols were queued at ingestion, nothing resolved yet. -/
def c1Init : BurstState := ⟨[], ⟨[c1ItemA, c1ItemB], false, []⟩, 0, 0, .notStarted, .notStarted⟩

/-- C1: the schedule in which both callers pass the `q.started` guard before
either HTTP response arrives, then resume, then the parse task runs. -/
def c1Trace : List BurstEv := [.stepA, .stepB, .stepA, .stepB, .runParse, .stepA, .stepB]

def c1Render : DocItemCog → Str := fun it => it.name

def c1Final : BurstState := burstRun c1Render c1ItemA c1ItemB c1Init c1Trace

/-- C2: a page on which `soup.find(id=...)` finds nothing. -/
def c2ApiAbsent : PageApi Unit :=
  ⟨fun _ => none, fun _ => "dt".data, fun _ => [], fun _ => none, fun _ => [],
   fun _ => [], fun d _ => d, fun s => s⟩

def c2Item : DocItemCog :=
  ⟨"Widget".data, "widgetlib".data, "class".data, "https://docs.example/w/".data,
   "api.html".data, "widget".data⟩

def c2TableOld : List (Str × DocItemDoc) :=
  [("Widget".data, ⟨"widgetlib".data, "https://docs.example/w/api.html#widget".data, "class".data⟩)]

/-- C3: a 1001-character markdown input: one fence marker, then letters. -/
def c3Input : Str := ticks3 ++ List.replicate 998 'a'

/-- C3 witness input for the amended statement. -/
def c3Plain : Str := List.replicate 1001 'a'

/-- C4: the wrapped coroutine, returning a non-None result per key. -/
def c4Fn : Nat → Option Nat := fun k => some k

/-- C4: inserting capacity+1 = 129 distinct keys into the default cache. -/
def c4Run129 : List (Nat × Option Nat) × Nat := runCalls 128 c4Fn (List.range 129) []

/-- C4: inserting capacity+2 = 130 distinct keys. -/
def c4Run130 : List (Nat × Option Nat) × Nat := runCalls 128 c4Fn (List.range 130) []

/-- C4: looking the evicted key 0 up again after the 130 inserts. -/
def c4EvictedCall : CallRes Nat Nat := cacheCall 128 c4Fn c4Run130.1 0

/-- C4: a read (hit) of key 1, the oldest surviving entry. -/
def c4ReadCall : CallRes Nat Nat := cacheCall 128 c4Fn c4Run130.1 1

/-- C4: a fresh insert right after that read; FIFO still evicts key 1. -/
def c4AfterRead : CallRes Nat Nat := cacheCall 128 c4Fn c4ReadCall.cache 130

/-- C5: legacy-cog table already holding "foo" from package alib. -/
def c5OldState : DocStateOld :=
  ⟨[("foo".data, ⟨"alib".data, "https://docs.example/a/page.html#foo".data, "class".data⟩)], []⟩

/-- C5: ingesting a colliding "foo" of group `std:label` into the legacy cog. -/
def c5DocResult : Except PyErr DocStateOld :=
  updateEntryDoc "blib".data "https://docs.example/b/".data "std:label".data "foo".data
    "p.html#foo".data c5OldState

/-- C6 (new cog): source A's entry, group label, then source B's entry, group class. -/
def c6CogStart : DocCogState := ⟨[], [], [], [], [], []⟩

def c6CogAfterA : Except PyErr DocCogState :=
  updateEntryCog "alib".data "https://docs.example/a/".data "std:label".data "foo".data
    "page.html#foo".data c6CogStart

def c6CogFinal : Except PyErr DocCogState :=
  match c6CogAfterA with
  | .ok st =>
    updateEntryCog "blib".data "https://docs.example/b/".data "py:class".data "foo".data
      "p2.html#foo".data st
  | .error e => .error e

/-- C6: the item source A produced (its `name` field keeps the original key). -/
def c6ItemA : DocItemCog :=
  ⟨"foo".data, "alib".data, "label".data, "https://docs.example/a/".data,
   "page.html".data, "foo".data⟩

/-- C6: the item source B produced. -/
def c6ItemB : DocItemCog :=
  ⟨"foo".data, "blib".data, "class".data, "https://docs.example/b/".data,
   "p2.html".data, "foo".data⟩

def c6DocAfterA : Except PyErr DocStateOld :=
  updateEntryDoc "alib".data "https://docs.example/a/".data "std:label".data "foo".data
    "page.html#foo".data ⟨[], []⟩

def c6DocFinal : Except PyErr DocStateOld :=
  match c6DocAfterA with
  | .ok st =>
    updateEntryDoc "blib".data "https://docs.example/b/".data "py:class".data "foo".data
      "p2.html#foo".data st
  | .error e => .error e

def c6DocItemA : DocItemDoc :=
  ⟨"alib".data, "https://docs.example/a/page.html#foo".data, "label".data⟩

def c6DocItemB : DocItemDoc :=
  ⟨"blib".data, "https://docs.example/b/p2.html#foo".data, "class".data⟩

/-- Project an `Except`-wrapped new-cog state to its symbol table. -/
def exceptCogTable (e : Except PyErr DocCogState) : List (Str × DocItemCog) :=
  match e with
  | .ok st => st.doc_symbols
  | .error _ => []

/-- Project an `Except`-wrapped legacy state to its symbol table. -/
def exceptDocTable (e : Except PyErr DocStateOld) : List (Str × DocItemDoc) :=
  match e with
  | .ok st => st.doc_symbols
  | .error _ => []

/-- Project an `Except`-wrapped legacy state to its renamed-symbol set. -/
def exceptDocRenamed (e : Except PyErr DocStateOld) : List Str :=
  match e with
  | .ok st => st.renamed_symbols
  | .error _ => []

def exceptIsOkCog (e : Except PyErr DocCogState) : Bool :=
  match e with
  | .ok _ => true
  | .error _ => false

def exceptIsOkDoc (e : Except PyErr DocStateOld) : Bool :=
  match e with
  | .ok _ => true
  | .error _ => false

/-- C7 witness: a state in which `symA` was resolved before the refresh. -/
def c7Item : DocItemCog := c1ItemA

def c7State : DocCogState :=
  ⟨[("pkg".data, "https://docs.example/".data)],
   [("symA".data, c7Item)],
   ["renamed.symA".data],
   [("https://docs.example/p.html".data, some "soup".data)],
   [("symA".data, "OLD-EMBED".data)],
   [("https://docs.example/p.html".data, ⟨[c7Item], false, [c7Item]⟩)]⟩

def c7Render : DocItemCog → Str := fun it => "NEW-EMBED".data ++ it.name

/-- C8 witness: a page api on which `Doc.get_symbol_html` succeeds with data. -/
def c8ApiPresent : PageApi Unit :=
  ⟨fun _ => some (), fun _ => "dt".data, fun _ => "gen".data, fun _ => some (),
   fun _ => "desc".data, fun _ => ["sig".data], fun d _ => d, fun s => s⟩

def c8Table : List (Str × DocItemDoc) := c2TableOld

/-- C10 witness: a two-item page queue. -/
def c10Queue : List DocItemCog := [c1ItemA, c1ItemB]

def c10Render : DocItemCog → Str := fun it => "embed-".data ++ it.name

/-- C10 witness: the state produced by one ingestion step. -/
def c10StAfter : DocCogState :=
  match c6CogAfterA with
  | .ok st => st
  | .error _ => c6CogStart

/-- C5 witness (new cog): an existing "foo" of group class from package alib. -/
def c5CogEx : DocItemCog :=
  ⟨"foo".data, "alib".data, "class".data, "https://docs.example/a/".data,
   "page.html".data, "foo".data⟩

def c5CogState : DocCogState := ⟨[], [("foo".data, c5CogEx)], [], [], [], []⟩

/-- C5 witness (legacy): the same existing entry in the legacy data model. -/
def c5DocEx : DocItemDoc :=
  ⟨"alib".data, "https://docs.example/a/page.html#foo".data, "class".data⟩

/-! ## Lemmas -/

theorem assocLookup_assocSet_self {K V : Type} [DecidableEq K]
    (c : List (K × V)) (k : K) (v : V) : assocLookup (assocSet c k v) k = some v := by
  induction c with
  | nil => simp [assocSet, assocLookup]
  | cons p t ih =>
    by_cases h : p.1 = k
    · simp [assocSet, assocLookup, h]
    · simpa [assocSet, assocLookup, h] using ih

theorem assocLookup_assocSet_ne {K V : Type} [DecidableEq K]
    (c : List (K × V)) (k k' : K) (v : V) (h : ¬ k' = k) :
    assocLookup (assocSet c k v) k' = assocLookup c k' := by
  induction c with
  | nil =>
    simp only [assocSet, assocLookup]
    rw [if_neg (fun hh => h hh.symm)]
  | cons p t ih =>
    by_cases hp : p.1 = k
    · subst hp
      have hne : ¬ p.1 = k' := fun hh => h hh.symm
      simp [assocSet, assocLookup, hne]
    · simp only [assocSet, if_neg hp]
      by_cases hq : p.1 = k'
      · simp [assocLookup, hq]
      · simpa [assocLookup, hq] using ih

theorem isPrefixOf_mem {a b : Str} (h : a.isPrefixOf b = true) {c : Char}
    (hc : c ∈ a) : c ∈ b := by
  induction a generalizing b with
  | nil => simp at hc
  | cons x xs ih =>
    cases b with
    | nil => simp [List.isPrefixOf] at h
    | cons y ys =>
      simp only [List.isPrefixOf, Bool.and_eq_true, beq_iff_eq] at h
      rcases List.mem_cons.mp hc with hcx | hcs
      · exact List.mem_cons.mpr (Or.inl (hcx.trans h.1))
      · exact List.mem_cons.mpr (Or.inr (ih h.2 hcs))

theorem occursAt_false_of_missing {s pat : Str} {c : Char} (hc : c ∈ pat)
    (hs : c ∉ s) (i : Nat) : occursAt s pat i = false := by
  by_contra h
  have h' : pat.isPrefixOf (s.drop i) = true := by
    simpa [occursAt] using h
  exact hs (List.drop_subset i s (isPrefixOf_mem h' hc))

theorem rfindAux_some_le {s pat : Str} {start n i : Nat}
    (h : rfindAux s pat start n = some i) : i ≤ n := by
  induction n with
  | zero =>
    unfold rfindAux at h
    split at h
    · simp only [Option.some.injEq] at h; omega
    · simp at h
  | succ m ih =>
    unfold rfindAux at h
    split at h
    · simp only [Option.some.injEq] at h; omega
    · exact Nat.le_trans (ih h) (Nat.le_succ m)

theorem rfindAux_none {s pat : Str} {start : Nat} (n : Nat)
    (h : ∀ i, i ≤ n → occursAt s pat i = false) : rfindAux s pat start n = none := by
  induction n with
  | zero => simp [rfindAux, h 0 (Nat.le_refl 0)]
  | succ m ih =>
    simp only [rfindAux, h (m + 1) (Nat.le_refl _), Bool.and_false, Bool.false_eq_true,
      if_false]
    exact ih (fun i hi => h i (Nat.le_trans hi (Nat.le_succ m)))

theorem pyRfindFrom_some_le {s pat : Str} {start i : Nat}
    (h : pyRfindFrom s pat start = some i) : i ≤ s.length :=
  rfindAux_some_le h

theorem pyRfindFrom_none_of_missing {s pat : Str} {c : Char} (hc : c ∈ pat)
    (hs : c ∉ s) (start : Nat) : pyRfindFrom s pat start = none :=
  rfindAux_none s.length (fun i _ => occursAt_false_of_missing hc hs i)

theorem chooseCutoff_le (sh : Str) (maxLen : Nat) (h : sh.length ≤ maxLen) :
    chooseCutoff sh maxLen ≤ maxLen := by
  unfold chooseCutoff
  split
  · next heq => exact Nat.le_trans (pyRfindFrom_some_le heq) h
  · split
    · next heq => exact Nat.le_trans (pyRfindFrom_some_le heq) h
    · split
      · next heq => exact Nat.le_trans (pyRfindFrom_some_le heq) h
      · split
        · next heq => exact Nat.le_trans (pyRfindFrom_some_le heq) h
        · split
          · next heq => exact Nat.le_trans (pyRfindFrom_some_le heq) h
          · exact Nat.le_refl maxLen

theorem rstripP_length_le (p : Char → Bool) (s : Str) :
    (rstripP p s).length ≤ s.length := by
  have h := (List.dropWhile_suffix (l := s.reverse) p).length_le
  simpa [rstripP] using h

theorem head?_dropWhile_false {p : Char → Bool} :
    ∀ {l : Str} {c : Char}, (l.dropWhile p).head? = some c → p c = false := by
  intro l
  induction l with
  | nil => intro c h; simp [List.dropWhile] at h
  | cons x t ih =>
    intro c h
    rw [List.dropWhile_cons] at h
    by_cases hp : p x = true
    · exact ih (by simpa [hp] using h)
    · have : x = c := by simpa [hp] using h
      simp [← this, hp]

theorem rstripP_getLast_false {p : Char → Bool} {s : Str} {c : Char}
    (h : (rstripP p s).getLast? = some c) : p c = false := by
  have h' : (s.reverse.dropWhile p).head? = some c := by
    simpa [rstripP, List.getLast?_reverse] using h
  exact head?_dropWhile_false h'

theorem fenceFix_length_le (md : Str) : (fenceFix md).length ≤ md.length := by
  unfold fenceFix
  split
  · split
    · next i _ =>
      have h1 := rstripP_length_le isPySpace (md.take i)
      have h2 : (md.take i).length ≤ md.length := by rw [List.length_take]; omega
      exact Nat.le_trans h1 h2
    · have h1 := rstripP_length_le isPySpace (md.take (md.length - 1))
      have h2 : (md.take (md.length - 1)).length ≤ md.length := by
        rw [List.length_take]; omega
      exact Nat.le_trans h1 h2
  · exact Nat.le_refl _

theorem countTicks_cons_ticks3 (s : Str) : countTicks (ticks3 ++ s) = countTicks s + 1 := by
  show countTicks (tickC :: tickC :: tickC :: s) = countTicks s + 1
  rw [countTicks]
  rw [if_pos (by simp [ticks3, List.isPrefixOf])]
  simp

theorem countTicks_zero {s : Str} (h : tickC ∉ s) : countTicks s = 0 := by
  induction s with
  | nil => rw [countTicks]
  | cons c t ih =>
    rw [countTicks, if_neg]
    · exact ih (fun hm => h (List.mem_cons.mpr (Or.inr hm)))
    · intro hpre
      have hx : tickC = c ∧ (List.isPrefixOf [tickC, tickC] t) = true := by
        simpa [ticks3, List.isPrefixOf] using hpre
      exact h (List.mem_cons.mpr (Or.inl hx.1))

theorem rstripP_append_replicate (p : Char → Bool) (pre : Str) (k : Nat) (a : Char)
    (ha : p a = false) : rstripP p (pre ++ List.replicate (k + 1) a) = pre ++ List.replicate (k + 1) a := by
  unfold rstripP
  rw [List.reverse_append, List.reverse_replicate, List.replicate_succ,
    List.cons_append, List.dropWhile_cons]
  simp only [ha, Bool.false_eq_true, if_false]
  rw [List.reverse_cons, List.reverse_append, List.reverse_reverse, List.reverse_replicate,
    List.append_assoc, ← List.replicate_succ', List.replicate_succ]

/-- Lookup after folding `assocSet` over items whose names avoid `k` is unchanged. -/
theorem foldl_assocSet_lookup_not_mem (render : DocItemCog → Str) :
    ∀ (l : List DocItemCog) (objects : List (Str × Str)) (k : Str),
      k ∉ l.map DocItemCog.name →
      assocLookup (l.foldl (fun obj it => assocSet obj it.name (render it)) objects) k
        = assocLookup objects k := by
  intro l
  induction l with
  | nil => intro objects k _; rfl
  | cons x t ih =>
    intro objects k hk
    simp only [List.map_cons, List.mem_cons] at hk
    push_neg at hk
    rw [List.foldl_cons, ih _ k (by simpa using hk.2),
      assocLookup_assocSet_ne _ _ _ _ hk.1]

/-- Folding `assocSet` over a name-distinct item list stores every item. -/
theorem foldl_assocSet_lookup_mem (render : DocItemCog → Str) :
    ∀ (l : List DocItemCog) (objects : List (Str × Str)) (item : DocItemCog),
      item ∈ l → (l.map DocItemCog.name).Nodup →
      assocLookup (l.foldl (fun obj it => assocSet obj it.name (render it)) objects) item.name
        = some (render item) := by
  intro l
  induction l with
  | nil => intro _ _ h; simp at h
  | cons x t ih =>
    intro objects item hmem hnd
    simp only [List.map_cons, List.nodup_cons] at hnd
    rw [List.foldl_cons]
    rcases List.mem_cons.mp hmem with hx | ht
    · subst hx
      rw [foldl_assocSet_lookup_not_mem render t _ _ hnd.1]
      exact assocLookup_assocSet_self _ _ _
    · exact ih _ item ht hnd.2

theorem parseItemsRun_lookup (render : DocItemCog → Str) (objects : List (Str × Str))
    (queue : List DocItemCog) (item : DocItemCog) (hmem : item ∈ queue)
    (hnd : (queue.map DocItemCog.name).Nodup) :
    assocLookup (parseItemsRun render objects queue) item.name = some (render item) := by
  unfold parseItemsRun
  refine foldl_assocSet_lookup_mem render _ _ _ (List.mem_reverse.mpr hmem) ?_
  rw [List.map_reverse]
  exact List.nodup_reverse.mpr hnd

/-- No branch of a caller step writes the `started` flag: the source assigns it
`False` in `__init__` and never assigns it again. -/
theorem callStep_started (item : DocItemCog) (s : BurstState) (ph : CallPhase) :
    (callStep item s ph).1.page.started = s.page.started := by
  cases ph <;>
    simp only [callStep, waitForItemStep] <;>
    (try split) <;>
    (try split) <;>
    (try split) <;>
    rfl

theorem burstStep_started (render : DocItemCog → Str) (iA iB : DocItemCog)
    (s : BurstState) (e : BurstEv) :
    (burstStep render iA iB s e).page.started = s.page.started := by
  cases e
  · exact callStep_started iA s s.phaseA
  · exact callStep_started iB s s.phaseB
  · rfl

/-! ## Claim theorems -/

set_option maxRecDepth 8000

/-- Claim C1.  The claim states that N concurrent `resolveSymbol` calls for
symbols sharing one page perform at most (and, for the burst, exactly) one
page fetch.  The code diverges: in the schedule `c1Trace`, where callers A and
B both reach the `if not q.started` guard before either HTTP response arrives,
the page is fetched twice (`fetchCount = 2`), because no code path ever sets
`TODO_PLACEHOLDER.started` to `True` (second conjunct: every transition
preserves the flag) and the allocated `fetch_lock` is never acquired.  The
parse-loop half of the claim does hold in this schedule: `parse_items` is
spawned exactly once and both callers complete with results stored. -/
theorem claim_C1_divergence :
    (c1Final.fetchCount = 2 ∧ c1Final.parseSpawns = 1 ∧
     c1Final.phaseA = CallPhase.done ∧ c1Final.phaseB = CallPhase.done ∧
     assocLookup c1Final.objects c1ItemA.name = some (c1Render c1ItemA) ∧
     assocLookup c1Final.objects c1ItemB.name = some (c1Render c1ItemB)) ∧
    (∀ (render : DocItemCog → Str) (iA iB : DocItemCog) (s : BurstState) (e : BurstEv),
      (burstStep render iA iB s e).page.started = s.page.started) :=
  ⟨by decide, burstStep_started⟩

/-- Claim C2.  The claim states that resolving a symbol present in the table
never raises, and that an anchor id missing from the fetched page is a normal
negative result.  The new `parsing.get_symbol_markdown` diverges: when
`soup.find(id=...)` returns `None`, every branch dereferences the `None`
heading and the call raises AttributeError (first conjunct), while the legacy
`Doc.get_symbol_html` handles the same situation with `return None` (second
conjunct), which is what the claim describes. -/
theorem claim_C2_divergence :
    parsingGetSymbolMarkdown c2ApiAbsent c2Item = .error .attributeError ∧
    docGetSymbolHtml c2ApiAbsent c2TableOld ("Widget".data) = .ok none :=
  ⟨rfl, rfl⟩

/-- Claim C4, counterexample.  With the default capacity 128, inserting
capacity+1 = 129 distinct keys evicts nothing: `async_cache` evicts before an
insert only when `len(cache) > max_size`, so all 129 keys remain (the cache
keys are exactly the inserted ones), the first-inserted key is still served
(`some 0`), and a subsequent lookup of it is a hit that does not re-invoke the
wrapped function — contradicting the claimed eviction of the first key. -/
theorem claim_C4_counterexample :
    c4Run129.1.map Prod.fst = List.range 129 ∧
    odGet c4Run129.1 0 = some 0 ∧
    c4Run129.2 = 129 ∧
    (cacheCall 128 c4Fn c4Run129.1 0).invoked = false := by
  decide

/-- Claim C4, amended.  The cache holds up to capacity+1 entries; inserting
capacity+2 = 130 distinct keys evicts exactly the single first-inserted key
(the final keys are `1..129` — strict FIFO by insertion); the wrapped function
ran once per insert; a subsequent lookup of the evicted key 0 is a miss that
re-invokes and recomputes it; a read of the surviving key 1 is a hit that
changes nothing, and the next fresh insert still evicts key 1 — reads do not
refresh an entry's position. -/
theorem claim_C4_amended :
    c4Run130.1.map Prod.fst = (List.range 130).drop 1 ∧
    c4Run130.2 = 130 ∧
    odGet c4Run130.1 0 = none ∧
    (c4EvictedCall.invoked = true ∧ c4EvictedCall.value = some 0) ∧
    (c4ReadCall.invoked = false ∧ c4ReadCall.cache = c4Run130.1) ∧
    (odGet c4AfterRead.cache 1 = none ∧ odGet c4AfterRead.cache 130 = some 130) := by
  decide

/-- Claim C6.  Two sources both defining "foo" — the first of group `label`
(in NO_OVERRIDE_GROUPS), the second of group `class` — ingested in that order
leave two distinct reachable keys in both implementations: `"label.foo"` maps
to the first source's entry and `"foo"` to the second source's entry; neither
is silently overwritten. -/
theorem claim_C6_two_keys :
    (exceptIsOkCog c6CogFinal = true ∧
     assocLookup (exceptCogTable c6CogFinal) ("label.foo".data) = some c6ItemA ∧
     assocLookup (exceptCogTable c6CogFinal) ("foo".data) = some c6ItemB) ∧
    (exceptIsOkDoc c6DocFinal = true ∧
     assocLookup (exceptDocTable c6DocFinal) ("label.foo".data) = some c6DocItemA ∧
     assocLookup (exceptDocTable c6DocFinal) ("foo".data) = some c6DocItemB) := by
  decide

/-- Claim C8, counterexample.  In `parsing._parse_into_markdown` an empty
signature list does not produce the generic-page fallback text (the fallback
exists only in the legacy `Doc.get_symbol_embed`), and an absent signature
does not produce the description alone: the output always starts with the
newline of `formatted_markdown += f"\n{description}"`. -/
theorem claim_C8_counterexample :
    ¬ parseIntoMarkdownMd (fun d _ => d) (fun s => s) (some []) ("hello".data) ("u".data)
        = genericPageText ∧
    ¬ parseIntoMarkdownMd (fun d _ => d) (fun s => s) none ("hello".data) ("u".data)
        = "hello".data := by
  decide

/-- Claim C8, amended.  In `parsing._parse_into_markdown`: an absent signature
yields a newline followed by the truncated description; a present signature
list yields one `py`-fenced block per entry (each entry passed through
`textwrap.shorten(_, 500)`), concatenated and followed by newline plus the
truncated description — an empty list yields no blocks and no fallback text.
The generic-page fallback exists only in the legacy `Doc.get_symbol_embed`,
which is unreachable as written: whenever `get_symbol_html` returns data,
line 330 calls the undefined `Doc.truncate_markdown` and raises
AttributeError. -/
theorem claim_C8_amended :
    (∀ (mdc : Str → Str → Str) (sh : Str → Str) (desc url : Str),
      parseIntoMarkdownMd mdc sh none desc url
        = nlC :: wsAfterNewlines (truncate_markdown (mdc desc url) 1000)) ∧
    (∀ (mdc : Str → Str → Str) (sh : Str → Str) (sigs : List Str) (desc url : Str),
      parseIntoMarkdownMd mdc sh (some sigs) desc url
        = (sigs.map (fun s => fencePyNl ++ sh s ++ ticks3)).flatten
          ++ nlC :: wsAfterNewlines (truncate_markdown (mdc desc url) 1000)) ∧
    (∀ (El : Type) (api : PageApi El) (table : List (Str × DocItemDoc)) (symbol : Str)
        (sigs : List Str) (html : Str),
      docGetSymbolHtml api table symbol = .ok (some (sigs, html)) →
      docGetSymbolEmbed api table symbol = .error .attributeError) := by
  refine ⟨fun mdc sh desc url => rfl, fun mdc sh sigs desc url => rfl, ?_⟩
  intro El api table symbol sigs html h
  unfold docGetSymbolEmbed
  rw [h]

/-- Claim C8, witness for the amended statement's hypothesis: a concrete page
on which `Doc.get_symbol_html` succeeds with data, whereupon
`Doc.get_symbol_embed` raises AttributeError at the missing
`truncate_markdown`. -/
theorem claim_C8_witness :
    docGetSymbolHtml c8ApiPresent c8Table ("Widget".data)
      = .ok (some (["sig".data], "desc".data)) ∧
    docGetSymbolEmbed c8ApiPresent c8Table ("Widget".data) = .error .attributeError :=
  ⟨rfl, claim_C8_amended.2.2 Unit c8ApiPresent c8Table ("Widget".data)
    ["sig".data] "desc".data rfl⟩

/-- Claim C9.  A `None` result is stored in the cache but never served from
it: when the wrapped function returns `None` for a key not currently served,
the call invokes the function, returns `None`, leaves `None` stored under the
key — and the next call with the same key invokes the function again, because
a hit is detected by the stored value being non-None. -/
theorem claim_C9_none_never_hit {K V : Type} [DecidableEq K] (maxSize : Nat)
    (f : K → Option V) (c : List (K × Option V)) (k : K)
    (hf : f k = none) (hc : odGet c k = none) :
    (cacheCall maxSize f c k).invoked = true ∧
    (cacheCall maxSize f c k).value = none ∧
    assocLookup (cacheCall maxSize f c k).cache k = some none ∧
    (cacheCall maxSize f (cacheCall maxSize f c k).cache k).invoked = true := by
  have hstore : assocLookup
      (assocSet (if maxSize < c.length then c.tail else c) k none) k = some none := by
    have h := assocLookup_assocSet_self (if maxSize < c.length then c.tail else c) k (f k)
    rwa [hf] at h
  have hv : odGet (assocSet (if maxSize < c.length then c.tail else c) k none) k = none := by
    unfold odGet
    rw [hstore]
  simp only [cacheCall, hc, hf]
  refine ⟨trivial, hv, hstore, ?_⟩
  simp only [cacheCall, hv]

/-- Claim C9, witness: the empty cache and a function that returns `None`. -/
theorem claim_C9_witness :
    ((fun _ : Nat => (none : Option Nat)) 0 = none) ∧
    odGet ([] : List (Nat × Option Nat)) 0 = none ∧
    ((cacheCall 128 (fun _ : Nat => (none : Option Nat)) [] 0).invoked = true ∧
     (cacheCall 128 (fun _ : Nat => (none : Option Nat)) [] 0).value = none ∧
     assocLookup (cacheCall 128 (fun _ : Nat => (none : Option Nat)) [] 0).cache 0
       = some none ∧
     (cacheCall 128 (fun _ : Nat => (none : Option Nat))
       (cacheCall 128 (fun _ : Nat => (none : Option Nat)) [] 0).cache 0).invoked = true) :=
  ⟨rfl, rfl, claim_C9_none_never_hit 128 (fun _ => none) [] 0 rfl rfl⟩

/-- Claim C7.  The claim's first half holds: `refresh_inventory` clears the
symbol table, the renamed-set and `async_cache.cache` (conjuncts 1-3).  Its
second half fails: the method never clears `self.objects` or `self.urls`
(conjuncts 4-5), so after a refresh a resolution for a symbol whose embed is
already stored returns the pre-refresh result with zero page fetches instead
of fetching and parsing the page again (final conjunct). -/
theorem claim_C7_stale_after_refresh (render : DocItemCog → Str) (st : DocCogState)
    (item : DocItemCog) (e : Str) (h : assocLookup st.objects item.name = some e) :
    (refreshClear st).doc_symbols = [] ∧
    (refreshClear st).renamed_symbols = [] ∧
    (refreshClear st).asyncCache = [] ∧
    (refreshClear st).objects = st.objects ∧
    (refreshClear st).urls = st.urls ∧
    resolveOnce render (refreshClear st) item = (refreshClear st, .served e 0) := by
  refine ⟨rfl, rfl, rfl, rfl, rfl, ?_⟩
  simp only [resolveOnce, refreshClear, h]

/-- Claim C7, witness: a state holding a pre-refresh embed for `symA`; after
the refresh the resolution still serves `OLD-EMBED` without fetching. -/
theorem claim_C7_witness :
    assocLookup c7State.objects c7Item.name = some ("OLD-EMBED".data) ∧
    ((refreshClear c7State).doc_symbols = [] ∧
     (refreshClear c7State).renamed_symbols = [] ∧
     (refreshClear c7State).asyncCache = [] ∧
     (refreshClear c7State).objects = c7State.objects ∧
     (refreshClear c7State).urls = c7State.urls ∧
     resolveOnce c7Render (refreshClear c7State) c7Item
       = (refreshClear c7State, .served ("OLD-EMBED".data) 0)) :=
  ⟨rfl, claim_C7_stale_after_refresh c7Render c7State c7Item ("OLD-EMBED".data) rfl⟩

/-- Claim C10.  First conjunct: a parse loop run to completion stores a
rendered entry for every item of the page queue (names distinct), not only the
awaited ones.  Second conjunct: every non-skipped, successfully ingested
inventory entry is appended to the parse queue of its page key
`base_url ++ relative_url_path`, so the queue holds every symbol registered to
the page at ingestion time. -/
theorem claim_C10_whole_queue_parsed :
    (∀ (render : DocItemCog → Str) (objects : List (Str × Str))
        (queue : List DocItemCog) (item : DocItemCog),
      item ∈ queue → (queue.map DocItemCog.name).Nodup →
      assocLookup (parseItemsRun render objects queue) item.name = some (render item)) ∧
    (∀ (api base group symbol rel : Str) (st st' : DocCogState),
      containsSub ['/'] symbol = false →
      updateEntryCog api base group symbol rel st = .ok st' →
      ∃ q : PageState, assocLookup st'.urls (base ++ (pyPartitionHash rel).1) = some q ∧
        ∃ it : DocItemCog, it ∈ q.queue ∧ it.package = api ∧ it.base_url = base ∧
          it.relative_url_path = (pyPartitionHash rel).1 ∧
          it.symbol_id = (pyPartitionHash rel).2) := by
  refine ⟨parseItemsRun_lookup, ?_⟩
  intro api base group symbol rel st st' hslash hok
  unfold updateEntryCog at hok
  rw [if_neg (by simp [hslash])] at hok
  rcases hgr : (splitAllChar ':' group)[1]? with _ | gname
  · simp only [hgr] at hok
    cases hok
  · simp only [hgr] at hok
    rcases hcr : collideRenameCog api gname symbol st with e | ⟨sym1, st1⟩
    · simp only [hcr] at hok
      cases hok
    · simp only [hcr, Except.ok.injEq] at hok
      subst hok
      refine ⟨_, assocLookup_assocSet_self _ _ _, ?_⟩
      exact ⟨_, List.mem_append.mpr (Or.inr (List.mem_singleton.mpr rfl)),
        rfl, rfl, rfl, rfl⟩

/-- Claim C10, witness: both halves at concrete inputs — a two-item queue is
fully parsed, and a concrete ingestion step lands its item in the queue of its
page key. -/
theorem claim_C10_witness :
    (c1ItemA ∈ c10Queue ∧ (c10Queue.map DocItemCog.name).Nodup ∧
     assocLookup (parseItemsRun c10Render [] c10Queue) c1ItemA.name
       = some (c10Render c1ItemA)) ∧
    (containsSub ['/'] ("foo".data) = false ∧
     updateEntryCog "alib".data "https://docs.example/a/".data "std:label".data
       "foo".data "page.html#foo".data c6CogStart = .ok c10StAfter ∧
     ∃ q : PageState, assocLookup c10StAfter.urls
         ("https://docs.example/a/".data ++ (pyPartitionHash "page.html#foo".data).1)
         = some q ∧
       ∃ it : DocItemCog, it ∈ q.queue ∧ it.package = "alib".data ∧
         it.base_url = "https://docs.example/a/".data ∧
         it.relative_url_path = (pyPartitionHash "page.html#foo".data).1 ∧
         it.symbol_id = (pyPartitionHash "page.html#foo".data).2) :=
  ⟨⟨by decide, by decide,
    claim_C10_whole_queue_parsed.1 c10Render [] c10Queue c1ItemA (by decide) (by decide)⟩,
   ⟨by decide, rfl,
    claim_C10_whole_queue_parsed.2 "alib".data "https://docs.example/a/".data
      "std:label".data "foo".data "page.html#foo".data c6CogStart c10StAfter
      (by decide) rfl⟩⟩

/-- Claim C5, counterexample.  In the legacy `Doc.update_single`, ingesting a
colliding "foo" whose group `label` is in NO_OVERRIDE_GROUPS inserts the new
entry under `"label.foo"` — but the renamed-set stays empty: the first cascade
branch of doc.py renames without `self.renamed_symbols.add(...)`, refuting the
claim that the renamed key is added to the renamed-set. -/
theorem claim_C5_counterexample :
    exceptIsOkDoc c5DocResult = true ∧
    assocLookup (exceptDocTable c5DocResult) ("label.foo".data)
      = some ⟨"blib".data, "https://docs.example/b/p.html#foo".data, "label".data⟩ ∧
    assocLookup (exceptDocTable c5DocResult) ("foo".data)
      = some ⟨"alib".data, "https://docs.example/a/page.html#foo".data, "class".data⟩ ∧
    exceptDocRenamed c5DocResult = [] := by
  decide

/-- Claim C5, amended.  When a colliding entry's new group is in
NO_OVERRIDE_GROUPS or the existing entry's base url hosts a
NO_OVERRIDE_PACKAGE, both implementations insert the new symbol under
`"{group}.{symbol}"` and keep the existing entry under its key; but only
`DocCog.update_single` adds the renamed key to the renamed-set (first
conjunct), while the legacy `Doc.update_single` leaves the renamed-set
unchanged whenever the renamed key is not already in it (second conjunct). -/
theorem claim_C5_amended :
    (∀ (api base group symbol rel gname host : Str) (st : DocCogState) (ex : DocItemCog),
      containsSub ['/'] symbol = false →
      (splitAllChar ':' group)[1]? = some gname →
      assocLookup st.doc_symbols symbol = some ex →
      (splitCharMax '/' 3 ex.url)[2]? = some host →
      (gname ∈ NO_OVERRIDE_GROUPS
        ∨ NO_OVERRIDE_PACKAGES.any (fun p => containsSub p host) = true) →
      ∃ st', updateEntryCog api base group symbol rel st = .ok st' ∧
        assocLookup st'.doc_symbols (gname ++ ['.'] ++ symbol)
          = some ⟨gname ++ ['.'] ++ symbol, api, gname, base,
                  (pyPartitionHash rel).1, (pyPartitionHash rel).2⟩ ∧
        assocLookup st'.doc_symbols symbol = some ex ∧
        (gname ++ ['.'] ++ symbol) ∈ st'.renamed_symbols) ∧
    (∀ (api base group symbol rel gname host : Str) (st : DocStateOld) (ex : DocItemDoc),
      containsSub ['/'] symbol = false →
      (splitAllChar ':' group)[1]? = some gname →
      assocLookup st.doc_symbols symbol = some ex →
      (splitCharMax '/' 3 ex.url)[2]? = some host →
      (gname ∈ NO_OVERRIDE_GROUPS
        ∨ NO_OVERRIDE_PACKAGES.any (fun p => containsSub p host) = true) →
      ¬ (gname ++ ['.'] ++ symbol) ∈ st.renamed_symbols →
      ∃ st', updateEntryDoc api base group symbol rel st = .ok st' ∧
        assocLookup st'.doc_symbols (gname ++ ['.'] ++ symbol)
          = some ⟨api, base ++ rel, gname⟩ ∧
        assocLookup st'.doc_symbols symbol = some ex ∧
        st'.renamed_symbols = st.renamed_symbols) := by
  have hne : ∀ (gname symbol : Str), ¬ symbol = gname ++ ['.'] ++ symbol := by
    intro gname symbol hh
    have hl := congrArg List.length hh
    simp [List.length_append] at hl
    omega
  constructor
  · intro api base group symbol rel gname host st ex hslash hgr hex hhost hcond
    unfold updateEntryCog
    rw [if_neg (by simp [hslash])]
    simp only [hgr]
    unfold collideRenameCog
    simp only [hex, hhost]
    rw [if_pos hcond]
    refine ⟨_, rfl, ?_, ?_, ?_⟩
    · exact assocLookup_assocSet_self _ _ _
    · rw [assocLookup_assocSet_ne _ _ _ _ (hne gname symbol)]
      exact hex
    · exact List.mem_append.mpr (Or.inr (List.mem_singleton.mpr rfl))
  · intro api base group symbol rel gname host st ex hslash hgr hex hhost hcond hnotren
    unfold updateEntryDoc
    rw [if_neg (by simp [hslash])]
    simp only [hgr, hex, hhost]
    rw [if_pos hcond]
    simp only
    rw [if_neg hnotren]
    refine ⟨_, rfl, ?_, ?_, rfl⟩
    · exact assocLookup_assocSet_self _ _ _
    · rw [assocLookup_assocSet_ne _ _ _ _ (hne gname symbol)]
      exact hex

/-- Claim C5, witness for both amended halves at a concrete collision: a table
holding "foo" (group class, from alib) receives a colliding "foo" of group
`std:label`. -/
theorem claim_C5_witness :
    ((splitAllChar ':' "std:label".data)[1]? = some "label".data ∧
     assocLookup c5CogState.doc_symbols ("foo".data) = some c5CogEx ∧
     (splitCharMax '/' 3 c5CogEx.url)[2]? = some "docs.example".data ∧
     ∃ st', updateEntryCog "blib".data "https://docs.example/b/".data "std:label".data
         "foo".data "p.html#foo".data c5CogState = .ok st' ∧
       assocLookup st'.doc_symbols ("label.foo".data)
         = some ⟨"label.foo".data, "blib".data, "label".data, "https://docs.example/b/".data,
                 (pyPartitionHash "p.html#foo".data).1, (pyPartitionHash "p.html#foo".data).2⟩ ∧
       assocLookup st'.doc_symbols ("foo".data) = some c5CogEx ∧
       ("label.foo".data) ∈ st'.renamed_symbols) ∧
    (∃ st', updateEntryDoc "blib".data "https://docs.example/b/".data "std:label".data
         "foo".data "p.html#foo".data c5OldState = .ok st' ∧
       assocLookup st'.doc_symbols ("label.foo".data)
         = some ⟨"blib".data, "https://docs.example/b/".data ++ "p.html#foo".data, "label".data⟩ ∧
       assocLookup st'.doc_symbols ("foo".data) = some c5DocEx ∧
       st'.renamed_symbols = c5OldState.renamed_symbols) := by
  refine ⟨⟨by decide, by decide, by decide, ?_⟩, ?_⟩
  · have h := claim_C5_amended.1 "blib".data "https://docs.example/b/".data
      "std:label".data "foo".data "p.html#foo".data "label".data "docs.example".data
      c5CogState c5CogEx (by decide) (by decide) (by decide) (by decide)
      (Or.inl (by decide))
    exact h
  · have h := claim_C5_amended.2 "blib".data "https://docs.example/b/".data
      "std:label".data "foo".data "p.html#foo".data "label".data "docs.example".data
      c5OldState c5DocEx (by decide) (by decide) (by decide) (by decide)
      (Or.inl (by decide)) (by decide)
    exact h

/-- Generic unfolding of `chooseCutoff` when every cutoff search misses: the
cutoff is the hard cut at `maxLen`.  Stated over an abstract `sh` so that
instantiating it never makes the kernel evaluate a search over a concrete
1000-character string. -/
theorem chooseCutoff_all_none (sh : Str) (maxLen : Nat)
    (h1 : pyRfindFrom sh nnS 100 = none)
    (h2 : pyRfindFrom sh dotSpaceS 0 = none)
    (h3 : pyRfindFrom sh commaSpaceS 0 = none)
    (h4 : pyRfindFrom sh commaS 0 = none)
    (h5 : pyRfindFrom sh spaceS 0 = none) :
    chooseCutoff sh maxLen = maxLen := by
  unfold chooseCutoff
  rw [h1, h2, h3, h4, h5]

/-- Generic unfolding of `fenceFix` in the odd-count, marker-absent case:
Python's `rfind` returns -1 and `markdown[:-1]` drops exactly the final
character before the whitespace strip. -/
theorem fenceFix_odd_noPy (md : Str) (hodd : countTicks md % 2 = 1)
    (hfp : pyRfindFrom md fencePyS 0 = none) :
    fenceFix md = rstripP isPySpace (md.take (md.length - 1)) := by
  unfold fenceFix
  rw [if_pos hodd, hfp]

/-- Generic unfolding of the long-input branch of `_truncate_markdown`. -/
theorem truncate_markdown_long (md : Str) (maxLen : Nat) (h : maxLen < md.length) :
    truncate_markdown md maxLen
      = rstripP isPunct (fenceFix (md.take (chooseCutoff (md.take maxLen) maxLen)))
        ++ dots3 := by
  unfold truncate_markdown
  rw [if_pos h]

/-- Characters of the C3 counterexample's cut text: backticks or letters. -/
theorem c3Input_take_eq :
    c3Input.take 1000 = ticks3 ++ List.replicate 997 'a' := by
  unfold c3Input
  rw [List.take_append_eq_append_take,
    List.take_of_length_le (by simp [ticks3] : ticks3.length ≤ 1000),
    List.take_replicate]
  norm_num [ticks3]

theorem c3Input_take_mem {c : Char} (hc : c ∈ c3Input.take 1000) :
    c = tickC ∨ c = 'a' := by
  rw [c3Input_take_eq] at hc
  rcases List.mem_append.mp hc with h1 | h2
  · left
    simpa [ticks3] using (by simpa [ticks3] using h1 : c = tickC ∨ c = tickC ∨ c = tickC).elim
      id (fun h => h.elim id id)
  · right
    exact List.eq_of_mem_replicate h2

/-- On the C3 counterexample the cutoff search finds nothing: none of the five
cut markers occurs (no newline, dot, comma or space in the text), so the
cutoff is the hard cut at `max_length`. -/
theorem c3Input_cutoff :
    chooseCutoff (c3Input.take 1000) 1000 = 1000 := by
  have habsent : ∀ x : Char, ¬ x = tickC → ¬ x = 'a' → x ∉ c3Input.take 1000 := by
    intro x hx1 hx2 hx
    rcases c3Input_take_mem hx with h | h
    · exact hx1 h
    · exact hx2 h
  exact chooseCutoff_all_none _ 1000
    (pyRfindFrom_none_of_missing (c := nlC) (by simp [nnS])
      (habsent nlC (by decide) (by decide)) 100)
    (pyRfindFrom_none_of_missing (c := '.') (by simp [dotSpaceS])
      (habsent '.' (by decide) (by decide)) 0)
    (pyRfindFrom_none_of_missing (c := ',') (by simp [commaSpaceS])
      (habsent ',' (by decide) (by decide)) 0)
    (pyRfindFrom_none_of_missing (c := ',') (by simp [commaS])
      (habsent ',' (by decide) (by decide)) 0)
    (pyRfindFrom_none_of_missing (c := ' ') (by simp [spaceS])
      (habsent ' ' (by decide) (by decide)) 0)

/-- The C3 counterexample evaluates to one unmatched fence, 996 letters and
the ellipsis: the odd fence count triggers the fix-up, `rfind('```py')` finds
nothing (Python -1), so only the final character is dropped. -/
theorem c3Input_trunc_eq :
    truncate_markdown c3Input 1000 = ticks3 ++ (List.replicate 996 'a' ++ dots3) := by
  have hgt : 1000 < c3Input.length := by simp [c3Input, ticks3]
  have hnotick : tickC ∉ List.replicate 997 'a' := by
    intro hm
    exact absurd (List.eq_of_mem_replicate hm) (by decide)
  have hct : countTicks (ticks3 ++ List.replicate 997 'a') = 1 := by
    rw [countTicks_cons_ticks3, countTicks_zero hnotick]
  have hp : ('p' : Char) ∉ ticks3 ++ List.replicate 997 'a' := by
    intro hm
    rw [← c3Input_take_eq] at hm
    rcases c3Input_take_mem hm with h | h <;> revert h <;> decide
  have hfp : pyRfindFrom (ticks3 ++ List.replicate 997 'a') fencePyS 0 = none :=
    pyRfindFrom_none_of_missing (c := 'p') (by simp [fencePyS]) hp 0
  have hlen2 : (ticks3 ++ List.replicate 997 'a').length = 1000 := by simp [ticks3]
  have htake999 : (ticks3 ++ List.replicate 997 'a').take (1000 - 1)
      = ticks3 ++ List.replicate 996 'a' := by
    rw [List.take_append_eq_append_take,
      List.take_of_length_le (by simp [ticks3] : ticks3.length ≤ 1000 - 1),
      List.take_replicate]
    norm_num [ticks3]
  have hstrip1 : rstripP isPySpace (ticks3 ++ List.replicate 996 'a')
      = ticks3 ++ List.replicate 996 'a' := by
    have h := rstripP_append_replicate isPySpace ticks3 995 'a' (by decide)
    norm_num at h
    exact h
  have hstrip2 : rstripP isPunct (ticks3 ++ List.replicate 996 'a')
      = ticks3 ++ List.replicate 996 'a' := by
    have h := rstripP_append_replicate isPunct ticks3 995 'a' (by decide)
    norm_num at h
    exact h
  calc truncate_markdown c3Input 1000
      = rstripP isPunct
          (fenceFix (c3Input.take (chooseCutoff (c3Input.take 1000) 1000))) ++ dots3 :=
        truncate_markdown_long c3Input 1000 hgt
    _ = rstripP isPunct (fenceFix (ticks3 ++ List.replicate 997 'a')) ++ dots3 := by
        rw [c3Input_cutoff, c3Input_take_eq]
    _ = rstripP isPunct (rstripP isPySpace ((ticks3 ++ List.replicate 997 'a').take
          ((ticks3 ++ List.replicate 997 'a').length - 1))) ++ dots3 := by
        rw [fenceFix_odd_noPy _ (by rw [hct]) hfp]
    _ = rstripP isPunct (rstripP isPySpace (ticks3 ++ List.replicate 996 'a')) ++ dots3 := by
        rw [hlen2, htake999]
    _ = rstripP isPunct (ticks3 ++ List.replicate 996 'a') ++ dots3 := by rw [hstrip1]
    _ = (ticks3 ++ List.replicate 996 'a') ++ dots3 := by rw [hstrip2]
    _ = ticks3 ++ (List.replicate 996 'a' ++ dots3) := List.append_assoc _ _ _

/-- Claim C3, counterexample.  The 1001-character input `c3Input` (one fence
marker, then letters) exceeds `max_length = 1000`, yet its truncation is 1002
characters long — more than the claimed 1000 — and contains an odd number of
triple-backtick fence markers, an unterminated fence: the fix-up searched for
`'```py'`, found nothing, and cut only one character. -/
theorem claim_C3_counterexample :
    1000 < c3Input.length ∧
    1000 < (truncate_markdown c3Input 1000).length ∧
    countTicks (truncate_markdown c3Input 1000) % 2 = 1 := by
  have hnotick : tickC ∉ List.replicate 996 'a' ++ dots3 := by
    intro hm
    rcases List.mem_append.mp hm with h | h
    · exact absurd (List.eq_of_mem_replicate h) (by decide)
    · revert h
      decide
  refine ⟨by simp [c3Input, ticks3], ?_, ?_⟩
  · rw [c3Input_trunc_eq]
    simp [ticks3, dots3]
  · rw [c3Input_trunc_eq, countTicks_cons_ticks3, countTicks_zero hnotick]

/-- Claim C3, amended.  For every markdown input longer than `max_length =
1000`, the truncation is at most 1003 characters — the cut text is at most
1000 characters and the three-character ellipsis is appended after it — it
ends with the ellipsis, and the character preceding the ellipsis is never
punctuation (trailing punctuation is stripped before appending).  An even
fence count is not guaranteed (see the counterexample); the odd-count fix-up
cuts back to the last `'```py'` occurrence, dropping one character when there
is none. -/
theorem claim_C3_amended (md : Str) (h : 1000 < md.length) :
    (truncate_markdown md 1000).length ≤ 1003 ∧
    ∃ t, truncate_markdown md 1000 = t ++ dots3 ∧
      ∀ c, t.getLast? = some c → isPunct c = false := by
  have hsh : (md.take 1000).length ≤ 1000 := List.length_take_le 1000 md
  have hcut : chooseCutoff (md.take 1000) 1000 ≤ 1000 := chooseCutoff_le _ _ hsh
  have hmd1 : (md.take (chooseCutoff (md.take 1000) 1000)).length ≤ 1000 := by
    have hl := List.length_take_le (chooseCutoff (md.take 1000) 1000) md
    omega
  have hfence := fenceFix_length_le (md.take (chooseCutoff (md.take 1000) 1000))
  have hstrip := rstripP_length_le isPunct
    (fenceFix (md.take (chooseCutoff (md.take 1000) 1000)))
  unfold truncate_markdown
  rw [if_pos h]
  refine ⟨?_, _, rfl, fun c hc => rstripP_getLast_false hc⟩
  simp only [List.length_append, dots3, List.length_cons, List.length_nil]
  omega

/-- Claim C3, witness for the amended statement at a concrete long input. -/
theorem claim_C3_witness :
    1000 < c3Plain.length ∧
    ((truncate_markdown c3Plain 1000).length ≤ 1003 ∧
     ∃ t, truncate_markdown c3Plain 1000 = t ++ dots3 ∧
       ∀ c, t.getLast? = some c → isPunct c = false) :=
  ⟨by simp [c3Plain], claim_C3_amended c3Plain (by simp [c3Plain])⟩

end BotDoc
